import Mathlib

/-!
Verification development for the Instance.js identity-fusion core
(src, v1.0.0-beta.6).  The definitions below are a shallow embedding of
the source: the hardened reflection Kernel (safe wrappers over raw,
possibly-throwing host operations), the identity-fusion section of the
`Instance` constructor (dynamic specialized-class creation, prototype
splice, bridge cache), and the two-pass descriptor merge
`_copyMethodsToElement` (Pass 1 collect, Pass 2 commit).

Modelling conventions:
- A raw host operation that may throw is modelled as a value of
  `Except JsErr A` supplied to the wrapper (the wrapper cannot influence
  whether the underlying operation throws, only react to it).
- The JS heap of prototype-linked objects is an association list from
  object ids to nodes carrying a prototype pointer and an extensibility
  flag.  `Object.setPrototypeOf` fails (throws TypeError) exactly when
  the target is missing or non-extensible with a different prototype.
- The unbounded `while` loop of the prototype-splice walk is modelled
  with an explicit fuel parameter; any fuel at least the chain length
  reproduces the loop behaviour on terminating runs.
- Property descriptors use `Option` fields, mirroring the defensive
  nullish-coalescing reads in the source; for getters and setters,
  `none` stands for an absent-or-undefined (falsy) accessor half.
-/

namespace InstanceJS

/-- Identifier of a heap object (a prototype object, element, …). -/
abbrev ObjId := Nat

/-- Error raised by raw host operations (TypeError is the only kind the
threat model distinguishes). -/
inductive JsErr
  | typeError
deriving DecidableEq, Repr

/-- Outcome of a raw underlying host operation: it may throw. -/
abbrev Raw (α : Type) := Except JsErr α

/-- Property key: JS string keys or symbol keys (symbols numbered). -/
inductive JsKey
  | str (s : String)
  | sym (n : Nat)
deriving DecidableEq, Repr

/-- JS runtime value, at the granularity the merge engine observes:
`undef`, primitives, plain function objects, and functions bound to a
receiver via the cached `Function.prototype.bind`. -/
inductive JsValue
  | undef
  | prim (n : Nat)
  | fn (id : Nat)
  | boundFn (id : Nat) (recv : Nat)
deriving DecidableEq, Repr

/-- Mirrors `Kernel.isFunction` (a `typeof` test, which cannot throw). -/
def JsValue.isFunctionB : JsValue → Bool
  | .fn _ => true
  | .boundFn _ _ => true
  | _ => false

/-- Mirrors `Kernel.bind(fn, thisArg)` on function values.  Binding an
already-bound function keeps the inner receiver (the fresh wrapper
identity produced by `bind` is not modelled). -/
def bindTo (v : JsValue) (recv : Nat) : JsValue :=
  match v with
  | .fn i => .boundFn i recv
  | .boundFn i r => .boundFn i r
  | v => v

/-! ## Hardened reflection Kernel (source lines 127-318)

Each safe wrapper is `try { raw } catch { default }`.  The raw
operation's outcome is passed in as an argument of type `Raw`.  A
wrapper whose catch branch is a constant can never propagate; the
result type `Raw` makes the propagation behaviour explicit. -/

namespace Kernel

/-- Safe wrapper over `Object.getPrototypeOf`; catch returns `null`. -/
def getPrototypeOf (raw : Raw (Option ObjId)) : Raw (Option ObjId) :=
  match raw with
  | .ok p => .ok p
  | .error _ => .ok none

/-- Safe wrapper over `Object.getOwnPropertyNames`; catch returns `[]`. -/
def getOwnPropertyNames (raw : Raw (List String)) : Raw (List String) :=
  match raw with
  | .ok l => .ok l
  | .error _ => .ok []

/-- Safe wrapper over `Object.getOwnPropertySymbols`; catch returns `[]`. -/
def getOwnPropertySymbols (raw : Raw (List Nat)) : Raw (List Nat) :=
  match raw with
  | .ok l => .ok l
  | .error _ => .ok []

/-- Safe wrapper over `Object.getOwnPropertyDescriptor`; catch returns
`undefined`. -/
def getOwnPropertyDescriptor {D : Type} (raw : Raw (Option D)) : Raw (Option D) :=
  match raw with
  | .ok d => .ok d
  | .error _ => .ok none

/-- Safe wrapper over `Object.defineProperty`; returns `true` on
success and `false` when the raw definition throws. -/
def defineProperty (raw : Raw Unit) : Raw Bool :=
  match raw with
  | .ok _ => .ok true
  | .error _ => .ok false

/-- Safe wrapper over `Reflect.has`; catch returns `false`. -/
def has (raw : Raw Bool) : Raw Bool :=
  match raw with
  | .ok b => .ok b
  | .error _ => .ok false

/-- Wrapper over `Array.prototype.push`.  The catch branch of the
source is `return arr.length`: a property read on the adversarial
argument, performed OUTSIDE any try block, whose own outcome is
`rawLengthGet`. -/
def arrayPush (rawPush : Raw Nat) (rawLengthGet : Raw Nat) : Raw Nat :=
  match rawPush with
  | .ok n => .ok n
  | .error _ => rawLengthGet

/-- Safe wrapper over `Array.prototype.reverse`; catch returns the
argument reference itself (no further host operation). -/
def arrayReverse {A : Type} (rawRev : Raw A) (arr : A) : Raw A :=
  match rawRev with
  | .ok r => .ok r
  | .error _ => .ok arr

/-- Safe wrapper over `Array.prototype.includes`; catch returns `false`. -/
def arrayIncludes (raw : Raw Bool) : Raw Bool :=
  match raw with
  | .ok b => .ok b
  | .error _ => .ok false

/-- Safe wrapper over `Array.prototype.forEach`; catch is a silent
no-op. -/
def arrayForEach (raw : Raw Unit) : Raw Unit :=
  match raw with
  | .ok _ => .ok ()
  | .error _ => .ok ()

/-- Safe wrapper over `Function.prototype.bind`; catch returns the
constant arrow function `() => undefined`. -/
def bind (raw : Raw JsValue) : Raw JsValue :=
  match raw with
  | .ok v => .ok v
  | .error _ => .ok (.fn 0)

/-- Safe wrapper over the console loggers; catch is a silent no-op. -/
def log (raw : Raw Unit) : Raw Unit :=
  match raw with
  | .ok _ => .ok ()
  | .error _ => .ok ()

/-- Safe wrapper over `document.createElement`; catch returns `null`. -/
def createElement (raw : Raw (Option ObjId)) : Raw (Option ObjId) :=
  match raw with
  | .ok e => .ok e
  | .error _ => .ok none

/-- Safe wrapper over the cached `tagName` getter.  When the getter was
not captured at load time the source falls back to a direct (still
try-guarded) property read. -/
def getTagName (cachedGetter : Bool) (rawDirect rawGetterCall : Raw (Option String)) :
    Raw (Option String) :=
  if ¬cachedGetter then
    match rawDirect with
    | .ok t => .ok t
    | .error _ => .ok none
  else
    match rawGetterCall with
    | .ok t => .ok t
    | .error _ => .ok none

/-- Safe wrapper over `Element.prototype.remove`; returns `false` when
the raw removal throws. -/
def removeElement (raw : Raw Unit) : Raw Bool :=
  match raw with
  | .ok _ => .ok true
  | .error _ => .ok false

end Kernel

/-! ## Heap of prototype-linked objects -/

/-- Heap node: a prototype pointer (`null` = `none`) and an
extensibility flag (frozen objects are non-extensible). -/
structure HNode where
  proto : Option ObjId
  extensible : Bool
deriving DecidableEq, Repr

/-- The heap is an association list from object ids to nodes. -/
abbrev Heap := List (ObjId × HNode)

/-- Look up an object in the heap. -/
def Heap.node (h : Heap) (i : ObjId) : Option HNode :=
  (h.find? (fun p => p.1 == i)).map (fun p => p.2)

/-- Read the prototype pointer of an object (`none` when the object is
missing or its prototype is `null`). -/
def Heap.protoOf (h : Heap) (i : ObjId) : Option ObjId :=
  (h.node i).bind (fun n => n.proto)

/-- Replace the node stored for `i` (all shadowed duplicates included). -/
def Heap.update (h : Heap) (i : ObjId) (p : Option ObjId) (ext : Bool) : Heap :=
  h.map (fun q => if q.1 == i then (i, ⟨p, ext⟩) else q)

/-- Mirrors `Object.setPrototypeOf(target, proto)`: throws TypeError on
a missing target, or on a non-extensible target whose current prototype
differs from the requested one; otherwise updates the pointer. -/
def Heap.setProto (h : Heap) (i : ObjId) (p : Option ObjId) : Except JsErr Heap :=
  match h.node i with
  | none => .error .typeError
  | some n =>
    if n.extensible ∨ n.proto == p then .ok (h.update i p n.extensible)
    else .error .typeError

/-- Structural ancestor-membership check: `p.isPrototypeOf(x)` holds
when `p` occurs in the prototype chain strictly above `x`.  Fuel bounds
the walk; any fuel at least the chain length is sufficient. -/
def Heap.inChain (h : Heap) (x p : ObjId) : Nat → Bool
  | 0 => false
  | fuel + 1 =>
    match h.protoOf x with
    | none => false
    | some q => q == p || h.inChain q p fuel

/-! ## Identity Fusion Engine (constructor section, source lines 427-556) -/

/-- The id of `Object.prototype`, the universal object root. -/
def objectProtoId : ObjId := 0

/-- The id of `Instance.prototype`, the fusion engine shared root. -/
def instanceProtoId : ObjId := 1

/-- Symbol id standing for the well-known `Symbol.hasInstance`. -/
def hasInstanceSymId : Nat := 0

/-- A class value: the identity of its constructor object, its display
name, and the id of its `prototype` object. -/
structure ClassVal where
  ctorId : Nat
  name : String
  protoId : ObjId
deriving DecidableEq, Repr

/-- Mutable engine state: the heap, the private
`Instance.#elementTypeCache` mapping cache keys to specialized bridge
classes, and a fresh-id allocator for newly created objects. -/
structure FusionState where
  heap : Heap
  cache : List (String × ClassVal)
  nextId : Nat
deriving DecidableEq, Repr

/-- Mirrors the source cache key
`Symbol.for(UserClass.name + ":" + NativeElementClass.name)`.
`Symbol.for` interns by string, so the key is modelled by the string
itself: two keys are the same symbol exactly when the strings agree. -/
def cacheKey (U N : ClassVal) : String := U.name ++ ":" ++ N.name

/-- Look up a cache key in `Instance.#elementTypeCache`. -/
def cacheLookup (c : List (String × ClassVal)) (k : String) : Option ClassVal :=
  (c.find? (fun p => p.1 == k)).map (fun p => p.2)

/-- Observable side effects performed while constructing an instance. -/
inductive Effect
  | setProtoOf (target : ObjId) (proto : Option ObjId)
  | defineOwn (target : ObjId) (key : JsKey)
  | ctorWrite (ctor : Nat) (key : JsKey)
  | mergeCall
  | warnLog
deriving DecidableEq, Repr

/-- The prototype-splice walk of the constructor (source lines
480-500): starting from the fresh specialized prototype, follow parent
pointers until reaching `Instance.prototype`, or a node whose parent is
`Object.prototype` or `null`; redirect that node's parent pointer to
the native prototype `target`.  Returns the updated heap and the node
that was spliced (`none` when fuel ran out before the loop finished;
the source loop is unbounded). -/
def walkSplice (h : Heap) (instProto objProto target cur : ObjId) :
    Nat → Except JsErr (Heap × Option ObjId)
  | 0 => .ok (h, none)
  | fuel + 1 =>
    let next := h.protoOf cur
    if cur == instProto || next == some objProto || next == none then
      match h.setProto cur (some target) with
      | .ok h1 => .ok (h1, some cur)
      | .error e => .error e
    else
      match next with
      | some n => walkSplice h instProto objProto target n fuel
      | none => .ok (h, none)

/-- Result of a successful fusion: the specialized bridge class, the
updated engine state, and how many bridge classes were created (0 on a
cache hit, 1 on a cache miss). -/
structure FuseOk where
  spec : ClassVal
  st : FusionState
  created : Nat
deriving DecidableEq, Repr

/-- The identity-fusion section of the constructor (source lines
446-509): resolve the cache key from the display names, reuse or create
the specialized bridge class (creating walks and splices the fresh
chain onto the native prototype), cache it, and repoint the element.
Exceptions propagate (the try/catch around the walk is commented out in
the source); the effect trace lists the successful mutations. -/
def fuse (fuel : Nat) (st : FusionState) (element : ObjId) (U N : ClassVal) :
    Except JsErr FuseOk × List Effect :=
  let key := cacheKey U N
  match cacheLookup st.cache key with
  | some S =>
    match st.heap.setProto element (some S.protoId) with
    | .ok h1 => (.ok ⟨S, ⟨h1, st.cache, st.nextId⟩, 0⟩, [.setProtoOf element (some S.protoId)])
    | .error e => (.error e, [])
  | none =>
    let specProtoId := st.nextId
    let h0 : Heap := (specProtoId, ⟨some U.protoId, true⟩) :: st.heap
    match walkSplice h0 instanceProtoId objectProtoId N.protoId specProtoId fuel with
    | .error e => (.error e, [])
    | .ok (h1, spliced) =>
      let S : ClassVal := ⟨st.nextId + 1, "", specProtoId⟩
      let spliceTrace : List Effect :=
        match spliced with
        | some t => [.setProtoOf t (some N.protoId)]
        | none => []
      match h1.setProto element (some specProtoId) with
      | .ok h2 =>
        (.ok ⟨S, ⟨h2, (key, S) :: st.cache, st.nextId + 2⟩, 1⟩,
         spliceTrace ++ [.setProtoOf element (some specProtoId)])
      | .error e => (.error e, spliceTrace)

/-- Result of a completed construction. -/
structure CtorOk where
  element : ObjId
  st : FusionState
  spec : ClassVal
  created : Nat
deriving DecidableEq, Repr

/-- The `Instance` constructor (source lines 366-556), restricted to
the fusion core the spec covers.  Out-of-scope glue is omitted: the
jQuery auto-merge (367-370), argument parsing and element resolution
(382-425, the element arrives resolved), the `WeakMap` private-data
write (a side table, not an object mutation), and the user `init`
callback (548-550).  `newTargetIsBase` is `new.target === Instance`;
`subclassHasInstance` is the truthiness of `subclass[Symbol.hasInstance]`
(line 377); `overrideConstructor` is the resolved config flag (525-528,
default `true`).  The call to `_copyMethodsToElement` (line 545) is
commented out in the source, so no merge effect is ever emitted. -/
def construct (fuel : Nat) (st : FusionState) (element : ObjId) (U N : ClassVal)
    (newTargetIsBase subclassHasInstance overrideConstructor : Bool) :
    Except JsErr CtorOk × List Effect :=
  let t0 : List Effect :=
    if ¬newTargetIsBase ∧ ¬subclassHasInstance then
      [.ctorWrite U.ctorId (.sym hasInstanceSymId)]
    else []
  match fuse fuel st element U N with
  | (.error e, tf) => (.error e, t0 ++ tf)
  | (.ok fo, tf) =>
    let tMeta : List Effect :=
      [.defineOwn element (.str "_isInstance"), .defineOwn element (.str "Instance"),
       .defineOwn element (.str "instance"), .defineOwn element (.str "0"),
       .defineOwn element (.str "length")]
    let tCtor : List Effect :=
      if overrideConstructor then
        [.defineOwn element (.str "constructor"), .ctorWrite U.ctorId (.str "native")]
      else []
    (.ok ⟨element, fo.st, fo.spec, fo.created⟩, t0 ++ tf ++ tMeta ++ tCtor)

/-! ## Descriptor Merge Engine (`_copyMethodsToElement`, source lines 621-818)

Pass 1 operates on the already-enumerated prototype levels (each level
is the list of own keys with their descriptors, in enumeration order);
the enumeration itself goes through the infallible Kernel wrappers, so
a hostile level simply contributes fewer keys or missing descriptors.
`isNative` is the oracle recording, per key, what
`Kernel.isNativeDOMProperty(element, key)` reports for the element
under construction (a pure function of the element tag and the key).
`Instance.config.debug` is `false` (its default), so debug-only logging
is omitted. -/

/-- Strictness policy of the merge (source `Instance.config.mode`). -/
inductive Mode
  | flexible
  | strict
  | strictest
deriving DecidableEq, Repr

/-- Property descriptor as observed through
`Kernel.getOwnPropertyDescriptor`.  A present `value` field (even
holding `undefined`) makes the descriptor a data descriptor; for `get`
and `set`, `none` stands for absent-or-undefined, matching every
truthiness test the source performs on them. -/
structure JsDescriptor where
  value : Option JsValue := none
  get : Option JsValue := none
  set : Option JsValue := none
  writable : Option Bool := none
  enumerable : Option Bool := none
  configurable : Option Bool := none
deriving DecidableEq, Repr

/-- Intermediate merge record stored in the `propertyMap` (source line
630): the JS object literals built in Pass 1.  Data records carry
`value` and `writable`; accessor records carry `get` and `set` and no
`writable` field. -/
structure PropRecord where
  type : String
  value : Option JsValue := none
  get : Option JsValue := none
  set : Option JsValue := none
  writable : Option Bool := none
  enumerable : Bool
  shouldLock : Bool
deriving DecidableEq, Repr

/-- One hierarchy level: own keys with their descriptors. -/
abbrev Level := List (JsKey × JsDescriptor)

/-- The merge map, a JS `Map`: insertion-ordered association list where
`set` of an existing key updates in place. -/
abbrev PropMap := List (JsKey × PropRecord)

/-- Diagnostics emitted through `Kernel.warn` during the merge. -/
abbrev MergeLog := List String

/-- Mirrors `Map.prototype.get`. -/
def mapGet (m : PropMap) (k : JsKey) : Option PropRecord :=
  (m.find? (fun p => p.1 == k)).map (fun p => p.2)

/-- Mirrors `Map.prototype.set`: update in place when the key exists,
append otherwise. -/
def mapSet (m : PropMap) (k : JsKey) (r : PropRecord) : PropMap :=
  if m.any (fun p => p.1 == k) then
    m.map (fun p => if p.1 == k then (k, r) else p)
  else m ++ [(k, r)]

/-- The reserved keys skipped by Pass 1 (source line 628). -/
def InstanceInternals : List String :=
  ["constructor", "_copyMethodsToElement", "_getPrivate", "_setPrivate"]

/-- Pass 1 body for a single key of a single level (source lines
644-771), a direct transcription of the forEach callback.  `element` is
the receiver functions get bound to. -/
def processKey (mode : Mode) (isNative : JsKey → Bool) (element : Nat)
    (acc : PropMap × MergeLog) (kd : JsKey × JsDescriptor) : PropMap × MergeLog :=
  let m := acc.1
  let lg := acc.2
  let k := kd.1
  let d := kd.2
  let isStrInternal : Bool :=
    match k with
    | .str s => InstanceInternals.contains s
    | .sym _ => false
  if isStrInternal then (m, lg)
  else
  let isStrNative : Bool :=
    match k with
    | .str _ => isNative k
    | .sym _ => false
  if isStrNative then (m, lg)
  else
  let existing := mapGet m k
  let isData : Bool := d.value.isSome
  let isAccessor : Bool := d.get.isSome || d.set.isSome
  if mode = .strictest ∧ ((existing.map (fun r => r.shouldLock)).getD false) = true then
    (m, lg ++ ["Cannot override non-configurable parent property"])
  else
  let wasData : Bool := (existing.map (fun r => r.type == "data")).getD false
  if existing.isSome ∧ mode ≠ .flexible ∧ wasData ≠ isData ∧ mode = .strictest then
    (m, lg ++ ["Cannot convert between data and accessor in strictest mode"])
  else
  let shouldLock : Bool :=
    match mode with
    | .flexible => d.configurable == some false
    | _ => (d.configurable == some false) || ((existing.map (fun r => r.shouldLock)).getD false)
  let writable : Bool :=
    match mode with
    | .flexible => d.writable.getD true
    | _ =>
      if isData then
        (d.writable.getD true) && ((existing.bind (fun r => r.writable)).getD true)
      else true
  let enumerable : Bool :=
    match mode with
    | .flexible => d.enumerable.getD false
    | _ => d.enumerable.getD ((existing.map (fun r => r.enumerable)).getD false)
  if isData then
    let v0 := d.value.getD .undef
    let v := if v0.isFunctionB then bindTo v0 element else v0
    (mapSet m k ⟨"data", some v, none, none, some writable, enumerable, shouldLock⟩, lg)
  else if isAccessor then
    let useChild : Bool :=
      mode = .flexible || existing.isNone ||
        ((existing.map (fun r => r.type == "accessor")).getD false) = false
    let finalGet : Option JsValue :=
      if useChild then d.get.map (fun g => bindTo g element)
      else
        match d.get with
        | some g => some (bindTo g element)
        | none => existing.bind (fun r => r.get)
    let finalSet : Option JsValue :=
      if useChild then d.set.map (fun s => bindTo s element)
      else
        match d.set with
        | some s => some (bindTo s element)
        | none => existing.bind (fun r => r.set)
    (mapSet m k ⟨"accessor", none, finalGet, finalSet, none, enumerable, shouldLock⟩, lg)
  else (m, lg)

/-- Fold Pass 1 over a list of levels starting from an accumulator. -/
def pass1Go (mode : Mode) (isNative : JsKey → Bool) (element : Nat)
    (acc : PropMap × MergeLog) (levels : List Level) : PropMap × MergeLog :=
  levels.foldl (fun a lvl => lvl.foldl (processKey mode isNative element) a) acc

/-- Pass 1 (source lines 634-772): reverse the collected prototype
chain (`protos` is most-derived first, as `Kernel.getPrototypeChain`
returns it) so that ancestors are processed before descendants, then
merge every key of every level. -/
def pass1 (mode : Mode) (isNative : JsKey → Bool) (element : Nat)
    (protos : List Level) : PropMap × MergeLog :=
  pass1Go mode isNative element ([], []) protos.reverse

/-- The descriptor Pass 2 hands to `Kernel.defineProperty` for one
record (source lines 778-806): data records keep value and writability,
accessor records keep both halves; configurability is the negation of
the lock flag.  A record of any other type is skipped (`none`). -/
def commitRecord (r : PropRecord) : Option JsDescriptor :=
  if r.type == "data" then
    some ⟨r.value, none, none, r.writable, some r.enumerable, some (!r.shouldLock)⟩
  else if r.type == "accessor" then
    some ⟨none, r.get, r.set, none, some r.enumerable, some (!r.shouldLock)⟩
  else none

/-- Pass 2 (source lines 778-814): the definitions committed onto the
element, in map insertion order. -/
def pass2 (m : PropMap) : List (JsKey × JsDescriptor) :=
  m.foldr (fun p acc =>
    match commitRecord p.2 with
    | some d => (p.1, d) :: acc
    | none => acc) []

/-- The whole two-pass merge: the descriptors
`_copyMethodsToElement` defines on the element, plus the diagnostics. -/
def copyMethodsToElement (mode : Mode) (isNative : JsKey → Bool) (element : Nat)
    (protos : List Level) : List (JsKey × JsDescriptor) × MergeLog :=
  let p1 := pass1 mode isNative element protos
  (pass2 p1.1, p1.2)

/-- Committed descriptor for a key, if any. -/
def committedFor (out : List (JsKey × JsDescriptor)) (k : JsKey) : Option JsDescriptor :=
  (out.find? (fun p => p.1 == k)).map (fun p => p.2)

/-! ## Specification-side notions used by the theorems -/

/-- A list of object ids forms a prototype path in the heap: each
element's prototype pointer is the next element (the last element's
pointer is unconstrained). -/
def linked (h : Heap) : List ObjId → Prop
  | [] => True
  | [_] => True
  | a :: b :: rest => h.protoOf a = some b ∧ linked h (b :: rest)

/-- Frame predicate for construction effects: hierarchy mutations may
target only the instance itself or the shared root
`Instance.prototype`; own-property writes only the instance; writes on
a constructor object only the user constructor, and only the keys
`native` and `Symbol.hasInstance`; no merge runs. -/
def frameOkB (element : ObjId) (uCtor : Nat) : Effect → Bool
  | .setProtoOf t _ => t == element || t == instanceProtoId
  | .defineOwn t _ => t == element
  | .ctorWrite c k => c == uCtor && (k == .str "native" || k == .sym hasInstanceSymId)
  | .mergeCall => false
  | .warnLog => true

/-- Whether an effect mutates the heap node `i` (prototype re-pointing
or own-property change). -/
def mutatesNodeB (i : ObjId) : Effect → Bool
  | .setProtoOf t _ => t == i
  | .defineOwn t _ => t == i
  | _ => false

/-- Whether an effect writes a property on the constructor object `c`. -/
def writesCtorB (c : Nat) : Effect → Bool
  | .ctorWrite c2 _ => c2 == c
  | _ => false

/-- Decidable equality on `Except`, used to evaluate the model on
concrete runs. -/
instance {E A : Type} [DecidableEq E] [DecidableEq A] : DecidableEq (Except E A) := by
  intro a b
  cases a <;> cases b
  case error.error x y =>
    exact match decEq x y with
    | isTrue hxy => isTrue (by rw [hxy])
    | isFalse hxy => isFalse (by intro hc; cases hc; exact hxy rfl)
  case ok.ok x y =>
    exact match decEq x y with
    | isTrue hxy => isTrue (by rw [hxy])
    | isFalse hxy => isFalse (by intro hc; cases hc; exact hxy rfl)
  case error.ok x y => exact isFalse (by intro hc; cases hc)
  case ok.error x y => exact isFalse (by intro hc; cases hc)

/-! ## Concrete demonstration environment

Object ids: 0 = `Object.prototype`, 1 = `Instance.prototype`,
2 = `Tab.prototype` (parent `Instance.prototype`), 3 =
`HTMLDivElement.prototype`, 4 = `HTMLButtonElement.prototype`,
8 = prototype of a second, distinct class also named `Tab`,
5/6/7 = three host elements.  All nodes start extensible. -/

def demoHeap : Heap :=
  [(0, ⟨none, true⟩), (1, ⟨some 0, true⟩), (2, ⟨some 1, true⟩),
   (3, ⟨some 0, true⟩), (4, ⟨some 0, true⟩),
   (5, ⟨none, true⟩), (6, ⟨none, true⟩), (7, ⟨none, true⟩),
   (8, ⟨some 1, true⟩)]

/-- Initial engine state over the demonstration heap. -/
def demoSt : FusionState := ⟨demoHeap, [], 20⟩

/-- A user class `Tab` extending `Instance`. -/
def demoT : ClassVal := ⟨10, "Tab", 2⟩

/-- A second, genuinely distinct user class that shares the display
name `Tab` (different constructor identity, different prototype). -/
def demoT2 : ClassVal := ⟨13, "Tab", 8⟩

/-- The host type of a div element. -/
def demoH1 : ClassVal := ⟨11, "HTMLDivElement", 3⟩

/-- The host type of a button element. -/
def demoH2 : ClassVal := ⟨12, "HTMLButtonElement", 4⟩

/-- State after fusing element 5 as a (`Tab`, `HTMLDivElement`) pair. -/
def demoSt1 : FusionState :=
  match (fuse 10 demoSt 5 demoT demoH1).1 with
  | .ok o => o.st
  | .error _ => demoSt

/-- State after additionally fusing element 6 as a
(`Tab`, `HTMLButtonElement`) pair. -/
def demoSt2 : FusionState :=
  match (fuse 10 demoSt1 6 demoT demoH2).1 with
  | .ok o => o.st
  | .error _ => demoSt1

/-- A heap whose shared root `Instance.prototype` is frozen
(non-extensible), used to exercise a refused pointer redirection. -/
def frozenHeap : Heap :=
  [(0, ⟨none, true⟩), (1, ⟨some 0, false⟩), (2, ⟨some 1, true⟩),
   (3, ⟨some 0, true⟩), (5, ⟨none, true⟩)]

/-- Engine state over the frozen-root heap. -/
def frozenSt : FusionState := ⟨frozenHeap, [], 20⟩

/-! ## Heap lemmas -/

theorem Heap.node_cons_of_eq (h : Heap) (a : ObjId × HNode) (j : ObjId) (heq : a.1 = j) :
    Heap.node (a :: h) j = some a.2 := by
  unfold Heap.node
  rw [List.find?_cons_of_pos]
  · rfl
  · simp [heq]

theorem Heap.node_cons_of_ne (h : Heap) (a : ObjId × HNode) (j : ObjId) (hne : a.1 ≠ j) :
    Heap.node (a :: h) j = h.node j := by
  unfold Heap.node
  rw [List.find?_cons_of_neg]
  simp [hne]

theorem Heap.node_cons_self (h : Heap) (i : ObjId) (n : HNode) :
    Heap.node ((i, n) :: h) i = some n :=
  Heap.node_cons_of_eq h (i, n) i rfl

theorem Heap.node_cons_ne (h : Heap) (i j : ObjId) (n : HNode) (hne : j ≠ i) :
    Heap.node ((i, n) :: h) j = h.node j :=
  Heap.node_cons_of_ne h (i, n) j (Ne.symm hne)

theorem Heap.update_cons (h : Heap) (a : ObjId × HNode) (i : ObjId) (p : Option ObjId)
    (ext : Bool) :
    Heap.update (a :: h) i p ext
      = (if a.1 == i then (i, ⟨p, ext⟩) else a) :: Heap.update h i p ext := rfl

theorem Heap.node_update_ne (h : Heap) (i j : ObjId) (p : Option ObjId) (ext : Bool)
    (hne : j ≠ i) : (h.update i p ext).node j = h.node j := by
  induction h with
  | nil => rfl
  | cons a t ih =>
    rw [Heap.update_cons]
    by_cases hai : a.1 = i
    · rw [if_pos (by simp [hai])]
      rw [Heap.node_cons_of_ne _ _ _ (by simpa using Ne.symm hne)]
      rw [Heap.node_cons_of_ne t a j (by rw [hai]; exact Ne.symm hne)]
      exact ih
    · rw [if_neg (by simp [hai])]
      by_cases haj : a.1 = j
      · rw [Heap.node_cons_of_eq _ a j haj, Heap.node_cons_of_eq t a j haj]
      · rw [Heap.node_cons_of_ne _ a j haj, Heap.node_cons_of_ne t a j haj]
        exact ih

theorem Heap.node_update_self (h : Heap) (i : ObjId) (p : Option ObjId) (ext : Bool)
    (hn : (h.node i).isSome = true) : (h.update i p ext).node i = some ⟨p, ext⟩ := by
  induction h with
  | nil => simp [Heap.node] at hn
  | cons a t ih =>
    rw [Heap.update_cons]
    by_cases hai : a.1 = i
    · rw [if_pos (by simp [hai])]
      exact Heap.node_cons_of_eq _ _ _ rfl
    · rw [if_neg (by simp [hai])]
      rw [Heap.node_cons_of_ne _ a i hai]
      apply ih
      rwa [Heap.node_cons_of_ne t a i hai] at hn

theorem Heap.protoOf_update_ne (h : Heap) (i j : ObjId) (p : Option ObjId) (ext : Bool)
    (hne : j ≠ i) : (h.update i p ext).protoOf j = h.protoOf j := by
  simp [Heap.protoOf, Heap.node_update_ne h i j p ext hne]

theorem Heap.protoOf_update_self (h : Heap) (i : ObjId) (p : Option ObjId) (ext : Bool)
    (hn : (h.node i).isSome = true) : (h.update i p ext).protoOf i = p := by
  simp [Heap.protoOf, Heap.node_update_self h i p ext hn]

theorem Heap.protoOf_cons_ne (h : Heap) (i j : ObjId) (n : HNode) (hne : j ≠ i) :
    Heap.protoOf ((i, n) :: h) j = h.protoOf j := by
  simp [Heap.protoOf, Heap.node_cons_ne h i j n hne]

theorem Heap.setProto_ok (h : Heap) (i : ObjId) (p0 : Option ObjId) (p : Option ObjId)
    (hn : h.node i = some ⟨p0, true⟩) :
    h.setProto i p = .ok (h.update i p true) := by
  simp [Heap.setProto, hn]

theorem Heap.setProto_frozen (h : Heap) (i : ObjId) (p0 : Option ObjId) (p : Option ObjId)
    (hn : h.node i = some ⟨p0, false⟩) (hne : p0 ≠ p) :
    h.setProto i p = .error .typeError := by
  simp [Heap.setProto, hn, hne]

/-! ## Merge-map lemmas -/

theorem mapGet_cons_of_eq (m : PropMap) (a : JsKey × PropRecord) (k : JsKey) (heq : a.1 = k) :
    mapGet (a :: m) k = some a.2 := by
  unfold mapGet
  rw [List.find?_cons_of_pos]
  · rfl
  · simp [heq]

theorem mapGet_cons_of_ne (m : PropMap) (a : JsKey × PropRecord) (k : JsKey) (hne : a.1 ≠ k) :
    mapGet (a :: m) k = mapGet m k := by
  unfold mapGet
  rw [List.find?_cons_of_neg]
  simp [hne]

theorem mapGet_replace_hit (m : PropMap) (k : JsKey) (r : PropRecord)
    (hany : m.any (fun p => p.1 == k) = true) :
    mapGet (m.map (fun p => if p.1 == k then (k, r) else p)) k = some r := by
  induction m with
  | nil => simp at hany
  | cons a t ih =>
    rw [List.map_cons]
    by_cases hak : a.1 = k
    · rw [if_pos (by simp [hak])]
      exact mapGet_cons_of_eq _ _ _ rfl
    · rw [if_neg (by simp [hak])]
      rw [mapGet_cons_of_ne _ a k hak]
      apply ih
      simpa [List.any_cons, hak] using hany

theorem mapGet_replace_other (m : PropMap) (k2 k : JsKey) (r : PropRecord) (hne : k2 ≠ k) :
    mapGet (m.map (fun p => if p.1 == k2 then (k2, r) else p)) k = mapGet m k := by
  induction m with
  | nil => rfl
  | cons a t ih =>
    rw [List.map_cons]
    by_cases hak : a.1 = k2
    · rw [if_pos (by simp [hak])]
      rw [mapGet_cons_of_ne _ _ _ (by simpa using hne)]
      rw [mapGet_cons_of_ne t a k (by rw [hak]; exact hne)]
      exact ih
    · rw [if_neg (by simp [hak])]
      by_cases haj : a.1 = k
      · rw [mapGet_cons_of_eq _ a k haj, mapGet_cons_of_eq t a k haj]
      · rw [mapGet_cons_of_ne _ a k haj, mapGet_cons_of_ne t a k haj]
        exact ih

theorem find_none_of_any_false (m : PropMap) (k : JsKey)
    (hany : m.any (fun p => p.1 == k) = false) :
    m.find? (fun p => p.1 == k) = none := by
  rw [List.find?_eq_none]
  intro x hx
  have := List.any_eq_false.mp hany x hx
  simpa using this

theorem mapGet_set_self (m : PropMap) (k : JsKey) (r : PropRecord) :
    mapGet (mapSet m k r) k = some r := by
  by_cases hany : m.any (fun p => p.1 == k)
  · rw [mapSet, if_pos hany]
    exact mapGet_replace_hit m k r hany
  · rw [mapSet, if_neg hany]
    unfold mapGet
    have hf : (List.any m fun p => p.1 == k) = false := by
      cases hb : List.any m fun p => p.1 == k
      · rfl
      · exact absurd hb hany
    rw [List.find?_append, find_none_of_any_false m k hf]
    simp [List.find?]

theorem mapGet_set_ne (m : PropMap) (k2 k : JsKey) (r : PropRecord) (hne : k2 ≠ k) :
    mapGet (mapSet m k2 r) k = mapGet m k := by
  by_cases hany : m.any (fun p => p.1 == k2)
  · rw [mapSet, if_pos hany]
    exact mapGet_replace_other m k2 k r hne
  · rw [mapSet, if_neg hany]
    unfold mapGet
    rw [List.find?_append]
    have h1 : (List.find? (fun p => p.1 == k) [(k2, r)]) = none := by
      have hb : ((k2 == k) = false) := by simp [hne]
      simp [List.find?, hb]
    rw [h1]
    cases m.find? (fun p => p.1 == k) <;> rfl

/-! ## Prototype-chain lemmas -/

theorem dropLast_cons₂ {α : Type} (a b : α) (l : List α) :
    (a :: b :: l).dropLast = a :: (b :: l).dropLast := rfl

theorem linked_congr (h h2 : Heap) (l : List ObjId)
    (hagree : ∀ x ∈ l.dropLast, h2.protoOf x = h.protoOf x)
    (hl : linked h l) : linked h2 l := by
  induction l with
  | nil => trivial
  | cons a t ih =>
    cases t with
    | nil => trivial
    | cons b rest =>
      obtain ⟨h1, htail⟩ := hl
      refine ⟨?_, ?_⟩
      · rw [hagree a (by rw [dropLast_cons₂]; exact List.mem_cons_self a _)]
        exact h1
      · exact ih (fun x hx => hagree x (by rw [dropLast_cons₂]; exact List.mem_cons_of_mem a hx)) htail

theorem inChain_of_linked (h : Heap) :
    ∀ (l : List ObjId) (x : ObjId) (fuel : Nat),
      h.protoOf x = l.head? → linked h l → l.length ≤ fuel →
      ∀ p ∈ l, h.inChain x p fuel = true := by
  intro l
  induction l with
  | nil => intro x fuel _ _ _ p hp; cases hp
  | cons a t ih =>
    intro x fuel hhead hl hlen p hp
    cases fuel with
    | zero => simp at hlen
    | succ f =>
      have hpx : h.protoOf x = some a := by simpa using hhead
      rcases List.mem_cons.mp hp with rfl | hpt
      · simp [Heap.inChain, hpx]
      · have hstep : h.inChain a p f = true := by
          cases t with
          | nil => cases hpt
          | cons b rest =>
            exact ih a f (by simpa using hl.1) hl.2 (by simpa using hlen) p hpt
        simp [Heap.inChain, hpx, hstep]

theorem linked_append (h : Heap) :
    ∀ (l1 l2 : List ObjId), linked h l1 → linked h l2 →
      (∀ a b, l1.getLast? = some a → l2.head? = some b → h.protoOf a = some b) →
      linked h (l1 ++ l2) := by
  intro l1
  induction l1 with
  | nil => intro l2 _ h2 _; simpa using h2
  | cons a t ih =>
    intro l2 h1 h2 hjoin
    cases t with
    | nil =>
      cases l2 with
      | nil => simpa using h1
      | cons b rest =>
        refine ⟨?_, h2⟩
        exact hjoin a b (by simp) (by simp)
    | cons c rest =>
      refine ⟨h1.1, ?_⟩
      exact ih l2 h1.2 h2 (fun x y hx hy => hjoin x y (by rw [List.getLast?_cons_cons]; exact hx) hy)

theorem walkSplice_succ (h : Heap) (i o t cur : ObjId) (f : Nat) :
    walkSplice h i o t cur (f + 1) =
      (if cur == i || h.protoOf cur == some o || h.protoOf cur == none then
        match h.setProto cur (some t) with
        | .ok h1 => .ok (h1, some cur)
        | .error e => .error e
      else
        match h.protoOf cur with
        | some n => walkSplice h i o t n f
        | none => .ok (h, none)) := rfl

theorem walkSplice_reaches (h : Heap) (target : ObjId) :
    ∀ (uc : List ObjId) (s : ObjId) (fuel : Nat),
      h.protoOf s = uc.head? →
      uc.getLast? = some instanceProtoId →
      (∀ x ∈ uc.dropLast, x ≠ instanceProtoId) →
      (∀ x ∈ uc, x ≠ objectProtoId) →
      linked h uc →
      s ≠ instanceProtoId →
      uc.length + 1 ≤ fuel →
      walkSplice h instanceProtoId objectProtoId target s fuel =
        (match h.setProto instanceProtoId (some target) with
         | .ok h1 => .ok (h1, some instanceProtoId)
         | .error e => .error e) := by
  intro uc
  induction uc with
  | nil => intro s fuel hhead hlast _ _ _ _ _; simp at hlast
  | cons a t ih =>
    intro s fuel hhead hlast hmid hobj hl hs hfuel
    cases fuel with
    | zero => omega
    | succ f =>
      have hpx : h.protoOf s = some a := by simpa using hhead
      have hanotobj : a ≠ objectProtoId := hobj a (List.mem_cons_self a t)
      have hguard1 : ((s == instanceProtoId) = false) := by simp [hs]
      have hguard2 : ((some a == some objectProtoId) = false) := by simp [hanotobj]
      cases t with
      | nil =>
        have ha : a = instanceProtoId := by simpa using hlast
        subst ha
        rw [walkSplice_succ, hpx]
        rw [if_neg (by simp [hguard1, hguard2])]
        have hf1 : 1 ≤ f := by simpa using hfuel
        cases f with
        | zero => omega
        | succ f2 =>
          show walkSplice h instanceProtoId objectProtoId target instanceProtoId (f2 + 1) =
            (match h.setProto instanceProtoId (some target) with
             | .ok h1 => .ok (h1, some instanceProtoId)
             | .error e => .error e)
          rw [walkSplice_succ]
          rw [if_pos (by simp)]
      | cons b rest =>
        have hanotinst : a ≠ instanceProtoId := by
          apply hmid a
          rw [dropLast_cons₂]
          exact List.mem_cons_self a _
        rw [walkSplice_succ, hpx]
        rw [if_neg (by simp [hguard1, hguard2])]
        show walkSplice h instanceProtoId objectProtoId target a f =
          (match h.setProto instanceProtoId (some target) with
           | .ok h1 => .ok (h1, some instanceProtoId)
           | .error e => .error e)
        refine ih a f (by simpa using hl.1) ?_ ?_ ?_ hl.2 hanotinst (by simpa using hfuel)
        · rw [← List.getLast?_cons_cons (a := a)]
          exact hlast
        · intro x hx
          apply hmid x
          rw [dropLast_cons₂]
          exact List.mem_cons_of_mem a hx
        · intro x hx
          exact hobj x (List.mem_cons_of_mem a hx)

/-! ## Fusion-engine lemmas -/

theorem cacheLookup_cons_self (c : List (String × ClassVal)) (k : String) (S : ClassVal) :
    cacheLookup ((k, S) :: c) k = some S := by
  unfold cacheLookup
  rw [List.find?_cons_of_pos]
  · rfl
  · simp

/-- Cache-hit fusion: when the display-name key is already cached, the
element is simply repointed at the cached bridge prototype and no
bridge is created, whatever the identities of the classes involved. -/
theorem fuse_hit_eq (fuel : Nat) (st : FusionState) (e : ObjId) (U N : ClassVal)
    (S : ClassVal) (epr : Option ObjId)
    (hkey : cacheLookup st.cache (cacheKey U N) = some S)
    (helem : st.heap.node e = some ⟨epr, true⟩) :
    fuse fuel st e U N =
      (.ok ⟨S, ⟨st.heap.update e (some S.protoId) true, st.cache, st.nextId⟩, 0⟩,
       [.setProtoOf e (some S.protoId)]) := by
  simp only [fuse, hkey, Heap.setProto_ok st.heap e epr (some S.protoId) helem]

/-- Bridge-creating fusion: with a fresh specialized prototype, a user
chain running from the user prototype to `Instance.prototype`, and
extensible junction and element nodes, the fusion splices the shared
root onto the native prototype, caches the new bridge under the
display-name key, and repoints the element at the bridge prototype. -/
theorem fuse_create_eq (fuel : Nat) (st : FusionState) (e : ObjId) (U N : ClassVal)
    (uc : List ObjId) (ipr epr : Option ObjId)
    (hkey : cacheLookup st.cache (cacheKey U N) = none)
    (hhead : uc.head? = some U.protoId)
    (hlast : uc.getLast? = some instanceProtoId)
    (hmid : ∀ x ∈ uc.dropLast, x ≠ instanceProtoId)
    (hobj : ∀ x ∈ uc, x ≠ objectProtoId)
    (hfresh : ∀ x ∈ uc, x ≠ st.nextId)
    (hlink : linked st.heap uc)
    (hinst : st.heap.node instanceProtoId = some ⟨ipr, true⟩)
    (helem : st.heap.node e = some ⟨epr, true⟩)
    (hsne : st.nextId ≠ instanceProtoId)
    (hene : e ≠ st.nextId) (heni : e ≠ instanceProtoId)
    (hfuel : uc.length + 1 ≤ fuel) :
    fuse fuel st e U N =
      (.ok ⟨⟨st.nextId + 1, "", st.nextId⟩,
        ⟨Heap.update (Heap.update ((st.nextId, ⟨some U.protoId, true⟩) :: st.heap)
              instanceProtoId (some N.protoId) true) e (some st.nextId) true,
         (cacheKey U N, ⟨st.nextId + 1, "", st.nextId⟩) :: st.cache, st.nextId + 2⟩, 1⟩,
       [.setProtoOf instanceProtoId (some N.protoId), .setProtoOf e (some st.nextId)]) := by
  have hh0inst :
      Heap.node ((st.nextId, ⟨some U.protoId, true⟩) :: st.heap) instanceProtoId
        = some ⟨ipr, true⟩ := by
    rw [Heap.node_cons_ne _ _ _ _ (Ne.symm hsne)]
    exact hinst
  have hlink0 : linked ((st.nextId, ⟨some U.protoId, true⟩) :: st.heap) uc := by
    refine linked_congr st.heap _ uc ?_ hlink
    intro x hx
    exact Heap.protoOf_cons_ne st.heap st.nextId x _
      (hfresh x (List.mem_of_mem_dropLast hx))
  have hwalk :
      walkSplice ((st.nextId, ⟨some U.protoId, true⟩) :: st.heap)
          instanceProtoId objectProtoId N.protoId st.nextId fuel
        = .ok (Heap.update ((st.nextId, ⟨some U.protoId, true⟩) :: st.heap) instanceProtoId
              (some N.protoId) true, some instanceProtoId) := by
    rw [walkSplice_reaches _ N.protoId uc st.nextId fuel ?_ hlast hmid hobj hlink0 hsne hfuel]
    · rw [Heap.setProto_ok _ instanceProtoId ipr (some N.protoId) hh0inst]
    · rw [hhead]
      simp [Heap.protoOf, Heap.node_cons_self]
  have hh1e :
      Heap.node (Heap.update ((st.nextId, ⟨some U.protoId, true⟩) :: st.heap) instanceProtoId
          (some N.protoId) true) e = some ⟨epr, true⟩ := by
    rw [Heap.node_update_ne _ _ _ _ _ heni]
    rw [Heap.node_cons_ne _ _ _ _ hene]
    exact helem
  simp only [fuse, hkey, hwalk,
    Heap.setProto_ok _ e epr (some st.nextId) hh1e]
  rfl

/-- Bridge-creating fusion against a frozen shared root: the splice
throws, the exception propagates, and nothing is cached or repointed. -/
theorem fuse_create_frozen (fuel : Nat) (st : FusionState) (e : ObjId) (U N : ClassVal)
    (uc : List ObjId) (ipr : Option ObjId)
    (hkey : cacheLookup st.cache (cacheKey U N) = none)
    (hhead : uc.head? = some U.protoId)
    (hlast : uc.getLast? = some instanceProtoId)
    (hmid : ∀ x ∈ uc.dropLast, x ≠ instanceProtoId)
    (hobj : ∀ x ∈ uc, x ≠ objectProtoId)
    (hfresh : ∀ x ∈ uc, x ≠ st.nextId)
    (hlink : linked st.heap uc)
    (hinst : st.heap.node instanceProtoId = some ⟨ipr, false⟩)
    (hiprne : ipr ≠ some N.protoId)
    (hsne : st.nextId ≠ instanceProtoId)
    (hfuel : uc.length + 1 ≤ fuel) :
    fuse fuel st e U N = (.error .typeError, []) := by
  have hh0inst :
      Heap.node ((st.nextId, ⟨some U.protoId, true⟩) :: st.heap) instanceProtoId
        = some ⟨ipr, false⟩ := by
    rw [Heap.node_cons_ne _ _ _ _ (Ne.symm hsne)]
    exact hinst
  have hlink0 : linked ((st.nextId, ⟨some U.protoId, true⟩) :: st.heap) uc := by
    refine linked_congr st.heap _ uc ?_ hlink
    intro x hx
    exact Heap.protoOf_cons_ne st.heap st.nextId x _
      (hfresh x (List.mem_of_mem_dropLast hx))
  have hwalk :
      walkSplice ((st.nextId, ⟨some U.protoId, true⟩) :: st.heap)
          instanceProtoId objectProtoId N.protoId st.nextId fuel
        = .error .typeError := by
    rw [walkSplice_reaches _ N.protoId uc st.nextId fuel ?_ hlast hmid hobj hlink0 hsne hfuel]
    · rw [Heap.setProto_frozen _ instanceProtoId ipr (some N.protoId) hh0inst hiprne]
    · rw [hhead]
      simp [Heap.protoOf, Heap.node_cons_self]
  simp only [fuse, hkey, hwalk]

/-- No code path of the fusion section ever emits a merge invocation. -/
theorem fuse_no_merge (fuel : Nat) (st : FusionState) (e : ObjId) (U N : ClassVal) :
    Effect.mergeCall ∉ (fuse fuel st e U N).2 := by
  cases hc : cacheLookup st.cache (cacheKey U N) with
  | some S =>
    cases hs : st.heap.setProto e (some S.protoId) with
    | ok h1 => simp [fuse, hc, hs]
    | error er => simp [fuse, hc, hs]
  | none =>
    cases hw : walkSplice ((st.nextId, ⟨some U.protoId, true⟩) :: st.heap)
        instanceProtoId objectProtoId N.protoId st.nextId fuel with
    | error er => simp [fuse, hc, hw]
    | ok pr =>
      obtain ⟨h1, spliced⟩ := pr
      cases hs2 : Heap.setProto h1 e (some st.nextId) with
      | ok h2 => cases spliced <;> simp [fuse, hc, hw, hs2]
      | error er => cases spliced <;> simp [fuse, hc, hw, hs2]

/-! ## Kernel infallibility lemmas (wrappers with constant catch branches) -/

theorem getPrototypeOf_never_throws (raw : Raw (Option ObjId)) :
    ∃ v, Kernel.getPrototypeOf raw = .ok v := by
  cases raw <;> exact ⟨_, rfl⟩

theorem getOwnPropertyNames_never_throws (raw : Raw (List String)) :
    ∃ v, Kernel.getOwnPropertyNames raw = .ok v := by
  cases raw <;> exact ⟨_, rfl⟩

theorem getOwnPropertySymbols_never_throws (raw : Raw (List Nat)) :
    ∃ v, Kernel.getOwnPropertySymbols raw = .ok v := by
  cases raw <;> exact ⟨_, rfl⟩

theorem getOwnPropertyDescriptor_never_throws {D : Type} (raw : Raw (Option D)) :
    ∃ v, Kernel.getOwnPropertyDescriptor raw = .ok v := by
  cases raw <;> exact ⟨_, rfl⟩

theorem defineProperty_never_throws (raw : Raw Unit) :
    ∃ v, Kernel.defineProperty raw = .ok v := by
  cases raw <;> exact ⟨_, rfl⟩

theorem has_never_throws (raw : Raw Bool) : ∃ v, Kernel.has raw = .ok v := by
  cases raw <;> exact ⟨_, rfl⟩

theorem arrayReverse_never_throws {A : Type} (rawRev : Raw A) (arr : A) :
    ∃ v, Kernel.arrayReverse rawRev arr = .ok v := by
  cases rawRev <;> exact ⟨_, rfl⟩

theorem arrayIncludes_never_throws (raw : Raw Bool) :
    ∃ v, Kernel.arrayIncludes raw = .ok v := by
  cases raw <;> exact ⟨_, rfl⟩

theorem arrayForEach_never_throws (raw : Raw Unit) :
    ∃ v, Kernel.arrayForEach raw = .ok v := by
  cases raw <;> exact ⟨_, rfl⟩

theorem bind_never_throws (raw : Raw JsValue) : ∃ v, Kernel.bind raw = .ok v := by
  cases raw <;> exact ⟨_, rfl⟩

theorem log_never_throws (raw : Raw Unit) : ∃ v, Kernel.log raw = .ok v := by
  cases raw <;> exact ⟨_, rfl⟩

theorem createElement_never_throws (raw : Raw (Option ObjId)) :
    ∃ v, Kernel.createElement raw = .ok v := by
  cases raw <;> exact ⟨_, rfl⟩

theorem getTagName_never_throws (cg : Bool) (r1 r2 : Raw (Option String)) :
    ∃ v, Kernel.getTagName cg r1 r2 = .ok v := by
  cases cg <;> cases r1 <;> cases r2 <;> exact ⟨_, rfl⟩

theorem removeElement_never_throws (raw : Raw Unit) :
    ∃ v, Kernel.removeElement raw = .ok v := by
  cases raw <;> exact ⟨_, rfl⟩

/-! ## Claim C4 -/

/-- Claim C4 (code bug).  The Kernel documents every primitive as a
safe wrapper that never propagates, and all wrappers but one indeed
have constant catch branches (see the infallibility lemmas above).
`Kernel.arrayPush` is the exception: its catch branch is
`return arr.length`, an unguarded property read on the adversarial
argument.  On an argument whose raw push throws and whose `length` read
also throws (for example a revoked proxy, or an object with a throwing
`length` getter), the TypeError propagates out of the wrapper instead
of any safe default being returned. -/
theorem arrayPush_propagates_on_throwing_length :
    Kernel.arrayPush (.error .typeError) (.error .typeError) = .error .typeError := rfl

/-! ## Claim C2 -/

/-- Claim C2 counterexample.  A concrete construction completes
successfully (returning element 5) yet performs zero merge
invocations, refuting that the two-pass descriptor merge runs exactly
once during construction: the `_copyMethodsToElement` call site in the
constructor (source line 545) is commented out. -/
theorem merge_called_once_cx :
    ((construct 10 demoSt 5 demoT demoH1 false true true).1.toOption.map
        (fun o => o.element) = some 5)
    ∧ ((construct 10 demoSt 5 demoT demoH1 false true true).2.count Effect.mergeCall = 0)
    ∧ ¬((construct 10 demoSt 5 demoT demoH1 false true true).2.count Effect.mergeCall = 1) := by
  decide

/-- Claim C2 amended: construction never invokes the two-pass
descriptor merge — on every input, successful or not, the construction
trace contains no merge invocation at all.  The merge procedure exists
in the source but its only construction call site is disabled. -/
theorem construct_never_merges (fuel : Nat) (st : FusionState) (e : ObjId)
    (U N : ClassVal) (a b c : Bool) :
    Effect.mergeCall ∉ (construct fuel st e U N a b c).2 := by
  have hnm := fuse_no_merge fuel st e U N
  cases hf : fuse fuel st e U N with
  | mk fr tr =>
    rw [hf] at hnm
    simp only at hnm
    cases fr with
    | error er =>
      simp only [construct, hf]
      simp [List.mem_append, hnm]
    | ok fo =>
      simp only [construct, hf]
      simp [List.mem_append, hnm]

/-! ## Claim C3 -/

/-- Claim C3 counterexample.  Two genuinely distinct user types — the
constructor identities and the prototype objects both differ — that
share the display name `Tab` are fused with the same host type: the
second fusion is a cache hit that creates zero bridges and returns the
very bridge cached for the first type, refuting the claim that the
cache is keyed by pair identity and that distinct pairs sharing a name
get distinct BridgeTypes.  The key is `Symbol.for(name + ":" + name)`. -/
theorem cache_identity_cx :
    demoT ≠ demoT2 ∧ demoT.name = demoT2.name
    ∧ ((fuse 10 demoSt 5 demoT demoH1).1.toOption.map (fun o => o.spec)
        = some ⟨21, "", 20⟩)
    ∧ ((fuse 10 demoSt1 6 demoT2 demoH1).1.toOption.map (fun o => (o.spec, o.created))
        = some (⟨21, "", 20⟩, 0)) := by
  decide

/-- Claim C3 amended: the BridgeType cache is keyed by the display-name
pair.  (1) Any fusion whose name-pair key is cached repoints the
element at the cached bridge and creates zero new BridgeTypes,
whatever the identities of the classes supplied — in particular all
fusions of one pair reuse a single bridge, but so do distinct types
sharing both names.  (2) Any successful fusion whose name-pair key is
uncached creates exactly one bridge and registers it under that key. -/
theorem cache_keyed_by_name (fuel : Nat) (st : FusionState) (e : ObjId) (U N : ClassVal) :
    (∀ S epr, cacheLookup st.cache (cacheKey U N) = some S →
      st.heap.node e = some ⟨epr, true⟩ →
      fuse fuel st e U N =
        (.ok ⟨S, ⟨st.heap.update e (some S.protoId) true, st.cache, st.nextId⟩, 0⟩,
         [.setProtoOf e (some S.protoId)]))
    ∧ (∀ out tr, cacheLookup st.cache (cacheKey U N) = none →
      fuse fuel st e U N = (.ok out, tr) →
      out.created = 1 ∧ out.spec.protoId = st.nextId ∧
        cacheLookup out.st.cache (cacheKey U N) = some out.spec) := by
  constructor
  · intro S epr hk he
    exact fuse_hit_eq fuel st e U N S epr hk he
  · intro out tr hk hok
    rw [show fuse fuel st e U N =
        (match walkSplice ((st.nextId, ⟨some U.protoId, true⟩) :: st.heap)
            instanceProtoId objectProtoId N.protoId st.nextId fuel with
         | .error er => (.error er, [])
         | .ok (h1, spliced) =>
            match Heap.setProto h1 e (some st.nextId) with
            | .ok h2 =>
              (.ok ⟨⟨st.nextId + 1, "", st.nextId⟩,
                ⟨h2, (cacheKey U N, ⟨st.nextId + 1, "", st.nextId⟩) :: st.cache,
                 st.nextId + 2⟩, 1⟩,
               (match spliced with
                | some t => [Effect.setProtoOf t (some N.protoId)]
                | none => []) ++ [Effect.setProtoOf e (some st.nextId)])
            | .error er =>
              (.error er,
               (match spliced with
                | some t => [Effect.setProtoOf t (some N.protoId)]
                | none => []))) from by simp only [fuse, hk]] at hok
    cases hw : walkSplice ((st.nextId, ⟨some U.protoId, true⟩) :: st.heap)
        instanceProtoId objectProtoId N.protoId st.nextId fuel with
    | error er => rw [hw] at hok; simp at hok
    | ok pr =>
      obtain ⟨h1, spliced⟩ := pr
      rw [hw] at hok
      dsimp only at hok
      cases hs2 : Heap.setProto h1 e (some st.nextId) with
      | error er => rw [hs2] at hok; simp at hok
      | ok h2 =>
        rw [hs2] at hok
        dsimp only at hok
        simp only [Prod.mk.injEq, Except.ok.injEq] at hok
        obtain ⟨hout, -⟩ := hok
        subst hout
        refine ⟨rfl, rfl, ?_⟩
        exact cacheLookup_cons_self st.cache (cacheKey U N) _

/-- Claim C3 witness: both halves of the amended statement applied at
concrete inputs.  The cached half reuses the bridge created for the
first `Tab` even for the distinct second `Tab`. -/
theorem cache_keyed_by_name_witness :
    fuse 10 demoSt1 6 demoT2 demoH1 =
      (.ok ⟨⟨21, "", 20⟩,
        ⟨demoSt1.heap.update 6 (some 20) true, demoSt1.cache, demoSt1.nextId⟩, 0⟩,
       [.setProtoOf 6 (some 20)]) :=
  (cache_keyed_by_name 10 demoSt1 6 demoT2 demoH1).1 ⟨21, "", 20⟩ none
    (by decide) (by decide)

/-! ## Claim C5 -/

/-- Claim C5 counterexample.  Fusing over a frozen shared root: the
constructor neither logs a warning nor completes — it propagates the
TypeError (the try/catch around the splice walk is commented out in
the source), and the element is never repointed, so not even partial
T-membership is established. -/
theorem redirect_failure_cx :
    (construct 10 frozenSt 5 demoT demoH1 false true true).1 = .error .typeError
    ∧ (construct 10 frozenSt 5 demoT demoH1 false true true).2 = [] := by
  decide

/-- Claim C5 amended: when the hierarchy-pointer redirection fails
during a bridge-creating fusion (the junction node is non-extensible
and its current prototype differs from the native prototype), the
exception propagates out of the constructor: construction does not
complete, no warning is logged, and the instance is never repointed
(no partial fusion either). -/
theorem redirect_failure_throws (fuel : Nat) (st : FusionState) (e : ObjId)
    (U N : ClassVal) (uc : List ObjId) (ipr : Option ObjId) (a b c : Bool)
    (hkey : cacheLookup st.cache (cacheKey U N) = none)
    (hhead : uc.head? = some U.protoId)
    (hlast : uc.getLast? = some instanceProtoId)
    (hmid : ∀ x ∈ uc.dropLast, x ≠ instanceProtoId)
    (hobj : ∀ x ∈ uc, x ≠ objectProtoId)
    (hfresh : ∀ x ∈ uc, x ≠ st.nextId)
    (hlink : linked st.heap uc)
    (hinst : st.heap.node instanceProtoId = some ⟨ipr, false⟩)
    (hiprne : ipr ≠ some N.protoId)
    (hsne : st.nextId ≠ instanceProtoId)
    (hfuel : uc.length + 1 ≤ fuel) :
    (construct fuel st e U N a b c).1 = .error .typeError
    ∧ ∀ eff ∈ (construct fuel st e U N a b c).2,
        eff ≠ .warnLog ∧ ∀ p, eff ≠ .setProtoOf e p := by
  have hf := fuse_create_frozen fuel st e U N uc ipr hkey hhead hlast hmid hobj
    hfresh hlink hinst hiprne hsne hfuel
  constructor
  · simp [construct, hf]
  · intro eff heff
    simp [construct, hf] at heff
    rcases heff with ⟨-, rfl⟩
    constructor
    · intro hcon
      cases hcon
    · intro p hcon
      cases hcon

/-- Claim C5 witness: the amended statement applied to the concrete
frozen-root state. -/
theorem redirect_failure_throws_witness :
    (construct 10 frozenSt 5 demoT demoH1 false true false).1 = .error .typeError
    ∧ ∀ eff ∈ (construct 10 frozenSt 5 demoT demoH1 false true false).2,
        eff ≠ .warnLog ∧ ∀ p, eff ≠ .setProtoOf 5 p :=
  redirect_failure_throws 10 frozenSt 5 demoT demoH1 [2, 1] (some 0) false true false
    (by decide) (by decide) (by decide) (by decide) (by decide) (by decide)
    ⟨by decide, trivial⟩ (by decide) (by decide) (by decide) (by decide)

/-! ## Claim C10 -/

/-- Claim C10 counterexample.  A concrete successful construction (with
the default constructor-override configuration) writes the `native`
property onto the UserType constructor object itself —
`element.constructor.native = nativeConstructor`, source line 533 — so
the UserType own node IS mutated by fusion, refuting the frame claim. -/
theorem fusion_frame_cx :
    Effect.ctorWrite demoT.ctorId (.str "native") ∈
      (construct 10 demoSt 5 demoT demoH1 false true true).2
    ∧ ((construct 10 demoSt 5 demoT demoH1 false true true).1.toOption.map
        (fun o => o.element) = some 5) := by
  decide

/-- Claim C10 amended: during a bridge-creating construction, hierarchy
pointer mutations are confined to the instance and the shared root
junction, own-property writes to the instance; the HostType nodes
(constructor and prototype) and the UserType prototype object are never
touched — but the UserType constructor object does receive property
writes: `native` (when constructor override is enabled, the default)
and `Symbol.hasInstance` (when the subclass lookup was falsy). -/
theorem fusion_frame_amended (fuel : Nat) (st : FusionState) (e : ObjId)
    (U N : ClassVal) (uc : List ObjId) (ipr epr : Option ObjId) (a b c : Bool)
    (hkey : cacheLookup st.cache (cacheKey U N) = none)
    (hhead : uc.head? = some U.protoId)
    (hlast : uc.getLast? = some instanceProtoId)
    (hmid : ∀ x ∈ uc.dropLast, x ≠ instanceProtoId)
    (hobj : ∀ x ∈ uc, x ≠ objectProtoId)
    (hfresh : ∀ x ∈ uc, x ≠ st.nextId)
    (hlink : linked st.heap uc)
    (hinst : st.heap.node instanceProtoId = some ⟨ipr, true⟩)
    (helem : st.heap.node e = some ⟨epr, true⟩)
    (hsne : st.nextId ≠ instanceProtoId)
    (hene : e ≠ st.nextId) (heni : e ≠ instanceProtoId)
    (hfuel : uc.length + 1 ≤ fuel)
    (hNpe : N.protoId ≠ e) (hNpi : N.protoId ≠ instanceProtoId)
    (hNc : N.ctorId ≠ U.ctorId)
    (hUpe : U.protoId ≠ e) (hUpi : U.protoId ≠ instanceProtoId) :
    ∀ eff ∈ (construct fuel st e U N a b c).2,
      frameOkB e U.ctorId eff = true
      ∧ mutatesNodeB N.protoId eff = false
      ∧ writesCtorB N.ctorId eff = false
      ∧ mutatesNodeB U.protoId eff = false := by
  have hfc := fuse_create_eq fuel st e U N uc ipr epr hkey hhead hlast hmid hobj
    hfresh hlink hinst helem hsne hene heni hfuel
  have htr : (construct fuel st e U N a b c).2 =
      ((if ¬a ∧ ¬b then [Effect.ctorWrite U.ctorId (.sym hasInstanceSymId)] else [])
        ++ [.setProtoOf instanceProtoId (some N.protoId), .setProtoOf e (some st.nextId)])
      ++ [.defineOwn e (.str "_isInstance"), .defineOwn e (.str "Instance"),
          .defineOwn e (.str "instance"), .defineOwn e (.str "0"),
          .defineOwn e (.str "length")]
      ++ (if c then [.defineOwn e (.str "constructor"),
            .ctorWrite U.ctorId (.str "native")] else []) := by
    simp [construct, hfc]
  rw [htr]
  intro eff heff
  rcases List.mem_append.mp heff with h123 | hctor
  · rcases List.mem_append.mp h123 with h12 | hmeta
    · rcases List.mem_append.mp h12 with h0 | hsp
      · split at h0
        · simp only [List.mem_singleton] at h0
          subst h0
          refine ⟨by simp [frameOkB, hasInstanceSymId], rfl, ?_, rfl⟩
          simp [writesCtorB, Ne.symm hNc]
        · cases h0
      · simp only [List.mem_cons, List.mem_singleton, List.not_mem_nil, or_false] at hsp
        rcases hsp with rfl | rfl
        · refine ⟨by simp [frameOkB], ?_, rfl, ?_⟩
          · simp [mutatesNodeB, Ne.symm hNpi]
          · simp [mutatesNodeB, Ne.symm hUpi]
        · refine ⟨by simp [frameOkB], ?_, rfl, ?_⟩
          · simp [mutatesNodeB, Ne.symm hNpe]
          · simp [mutatesNodeB, Ne.symm hUpe]
    · simp only [List.mem_cons, List.mem_singleton, List.not_mem_nil, or_false] at hmeta
      rcases hmeta with rfl | rfl | rfl | rfl | rfl <;>
        exact ⟨by simp [frameOkB], by simp [mutatesNodeB, Ne.symm hNpe], rfl,
          by simp [mutatesNodeB, Ne.symm hUpe]⟩
  · split at hctor
    · simp only [List.mem_cons, List.mem_singleton, List.not_mem_nil, or_false] at hctor
      rcases hctor with rfl | rfl
      · exact ⟨by simp [frameOkB], by simp [mutatesNodeB, Ne.symm hNpe], rfl,
          by simp [mutatesNodeB, Ne.symm hUpe]⟩
      · refine ⟨by simp [frameOkB], rfl, ?_, rfl⟩
        simp [writesCtorB, Ne.symm hNc]
    · cases hctor

/-- Claim C10 witness: the amended frame statement applied to the
concrete bridge-creating construction of element 5, evaluated at the
shared-root splice effect of its trace. -/
theorem fusion_frame_amended_witness :
    frameOkB 5 demoT.ctorId (.setProtoOf instanceProtoId (some demoH1.protoId)) = true
    ∧ mutatesNodeB demoH1.protoId (.setProtoOf instanceProtoId (some demoH1.protoId)) = false
    ∧ writesCtorB demoH1.ctorId (.setProtoOf instanceProtoId (some demoH1.protoId)) = false
    ∧ mutatesNodeB demoT.protoId (.setProtoOf instanceProtoId (some demoH1.protoId)) = false :=
  fusion_frame_amended 10 demoSt 5 demoT demoH1 [2, 1] (some 0) none false true true
    (by decide) (by decide) (by decide) (by decide) (by decide) (by decide)
    ⟨by decide, trivial⟩ (by decide) (by decide) (by decide) (by decide)
    (by decide) (by decide) (by decide) (by decide) (by decide) (by decide) (by decide)
    (.setProtoOf instanceProtoId (some demoH1.protoId)) (by decide)

/-! ## Claim C1 -/

/-- Claim C1 counterexample.  Three-fusion interleaving: after fusing
(`Tab`, `HTMLDivElement`) and then (`Tab`, `HTMLButtonElement`) — which
repoints the single shared root — a third, successful fusion of the
cached (`Tab`, `HTMLDivElement`) pair on element 7 leaves that element
WITHOUT `HTMLDivElement.prototype` in its chain (its chain now runs
through the button prototype), refuting the unconditional
post-fusion H-membership claim.  T-membership still holds. -/
theorem fusion_membership_cx :
    ((fuse 10 demoSt2 7 demoT demoH1).1.toOption.map (fun o => o.created) = some 0)
    ∧ ((fuse 10 demoSt2 7 demoT demoH1).1.toOption.map
        (fun o => o.st.heap.inChain 7 demoH1.protoId 10) = some false)
    ∧ ((fuse 10 demoSt2 7 demoT demoH1).1.toOption.map
        (fun o => o.st.heap.inChain 7 demoT.protoId 10) = some true)
    ∧ ((fuse 10 demoSt2 7 demoT demoH1).1.toOption.map
        (fun o => o.st.heap.inChain 7 demoH2.protoId 10) = some true) := by
  decide

/-- Claim C1 amended: the postcondition does hold for every
bridge-creating fusion (first fusion of a name-pair): immediately
afterwards the instance chain structurally contains the BridgeType
prototype, the UserType prototype and every ancestor up to the shared
root, and the HostType prototype and every ancestor of it.  (For
cache-hit fusions after an intervening fusion with a different host
type, H-membership can be lost, as the counterexample shows.) -/
theorem fusion_membership_bridge_creating (fuel F : Nat) (st : FusionState) (e : ObjId)
    (U N : ClassVal) (uc hs : List ObjId) (ipr epr : Option ObjId)
    (hkey : cacheLookup st.cache (cacheKey U N) = none)
    (hhead : uc.head? = some U.protoId)
    (hlast : uc.getLast? = some instanceProtoId)
    (hmid : ∀ x ∈ uc.dropLast, x ≠ instanceProtoId)
    (hobj : ∀ x ∈ uc, x ≠ objectProtoId)
    (hfresh : ∀ x ∈ uc, x ≠ st.nextId)
    (hue : ∀ x ∈ uc, x ≠ e)
    (hlink : linked st.heap uc)
    (hhlink : linked st.heap (N.protoId :: hs))
    (hhfresh : ∀ x ∈ N.protoId :: hs, x ≠ st.nextId)
    (hhinst : ∀ x ∈ N.protoId :: hs, x ≠ instanceProtoId)
    (hhe : ∀ x ∈ N.protoId :: hs, x ≠ e)
    (hinst : st.heap.node instanceProtoId = some ⟨ipr, true⟩)
    (helem : st.heap.node e = some ⟨epr, true⟩)
    (hsne : st.nextId ≠ instanceProtoId)
    (hene : e ≠ st.nextId) (heni : e ≠ instanceProtoId)
    (hfuel : uc.length + 1 ≤ fuel)
    (hF : uc.length + hs.length + 2 ≤ F) :
    ∃ out tr, fuse fuel st e U N = (.ok out, tr) ∧ out.created = 1 ∧
      ∀ p ∈ (st.nextId :: uc) ++ (N.protoId :: hs),
        Heap.inChain out.st.heap e p F = true := by
  have hfc := fuse_create_eq fuel st e U N uc ipr epr hkey hhead hlast hmid hobj
    hfresh hlink hinst helem hsne hene heni hfuel
  obtain ⟨u0, urest, rfl⟩ : ∃ u0 urest, uc = u0 :: urest := by
    cases uc with
    | nil => simp at hhead
    | cons x xs => exact ⟨x, xs, rfl⟩
  have hu0 : u0 = U.protoId := by simpa using hhead
  set h2 : Heap :=
    Heap.update (Heap.update ((st.nextId, ⟨some U.protoId, true⟩) :: st.heap)
      instanceProtoId (some N.protoId) true) e (some st.nextId) true with hh2
  have hagree : ∀ x, x ≠ e → x ≠ instanceProtoId → x ≠ st.nextId →
      h2.protoOf x = st.heap.protoOf x := by
    intro x hxe hxi hxs
    rw [hh2]
    rw [Heap.protoOf_update_ne _ _ _ _ _ hxe]
    rw [Heap.protoOf_update_ne _ _ _ _ _ hxi]
    exact Heap.protoOf_cons_ne st.heap st.nextId x _ hxs
  have hnodeInner :
      Heap.node (Heap.update ((st.nextId, ⟨some U.protoId, true⟩) :: st.heap)
        instanceProtoId (some N.protoId) true) e = some ⟨epr, true⟩ := by
    rw [Heap.node_update_ne _ _ _ _ _ heni, Heap.node_cons_ne _ _ _ _ hene]
    exact helem
  have hpe : h2.protoOf e = some st.nextId := by
    rw [hh2]
    rw [Heap.protoOf_update_self _ _ _ _ (by rw [hnodeInner]; rfl)]
  have hpsp : h2.protoOf st.nextId = some U.protoId := by
    rw [hh2]
    rw [Heap.protoOf_update_ne _ _ _ _ _ (Ne.symm hene)]
    rw [Heap.protoOf_update_ne _ _ _ _ _ hsne]
    simp [Heap.protoOf, Heap.node_cons_self]
  have hnodeInst :
      Heap.node ((st.nextId, ⟨some U.protoId, true⟩) :: st.heap) instanceProtoId
        = some ⟨ipr, true⟩ := by
    rw [Heap.node_cons_ne _ _ _ _ (Ne.symm hsne)]
    exact hinst
  have hpinst : h2.protoOf instanceProtoId = some N.protoId := by
    rw [hh2]
    rw [Heap.protoOf_update_ne _ _ _ _ _ (Ne.symm heni)]
    rw [Heap.protoOf_update_self _ _ _ _ (by rw [hnodeInst]; rfl)]
  have hlink2 : linked h2 (u0 :: urest) := by
    refine linked_congr st.heap h2 _ ?_ hlink
    intro x hx
    exact hagree x (hue x (List.mem_of_mem_dropLast hx)) (hmid x hx)
      (hfresh x (List.mem_of_mem_dropLast hx))
  have hlinkH : linked h2 (N.protoId :: hs) := by
    refine linked_congr st.heap h2 _ ?_ hhlink
    intro x hx
    have hxm := List.mem_of_mem_dropLast hx
    exact hagree x (hhe x hxm) (hhinst x hxm) (hhfresh x hxm)
  have hbig : linked h2 ((st.nextId :: u0 :: urest) ++ (N.protoId :: hs)) := by
    refine linked_append h2 _ _ ⟨by rw [hu0]; exact hpsp, hlink2⟩ hlinkH ?_
    intro a' b' ha' hb'
    have ha2 : a' = instanceProtoId := by
      rw [List.getLast?_cons_cons] at ha'
      rw [hlast] at ha'
      exact (Option.some_injective _ ha').symm
    have hb2 : b' = N.protoId := by simpa using hb'.symm
    rw [ha2, hb2]
    exact hpinst
  refine ⟨_, _, hfc, rfl, ?_⟩
  intro p hp
  refine inChain_of_linked h2 _ e F ?_ hbig ?_ p hp
  · simpa using hpe
  · simp only [List.length_append, List.length_cons] at hF ⊢
    omega

/-- Claim C1 witness: the amended postcondition applied to the concrete
first fusion of (`Tab`, `HTMLDivElement`) on element 5: the chain of
the fused element contains the bridge prototype 20, `Tab.prototype` 2,
`Instance.prototype` 1, `HTMLDivElement.prototype` 3 and
`Object.prototype` 0. -/
theorem fusion_membership_bridge_creating_witness :
    ∃ out tr, fuse 10 demoSt 5 demoT demoH1 = (.ok out, tr) ∧ out.created = 1 ∧
      ∀ p ∈ ([20, 2, 1] ++ [3, 0] : List ObjId),
        Heap.inChain out.st.heap 5 p 10 = true :=
  fusion_membership_bridge_creating 10 10 demoSt 5 demoT demoH1 [2, 1] [0]
    (some 0) none
    (by decide) (by decide) (by decide) (by decide) (by decide) (by decide) (by decide)
    ⟨by decide, trivial⟩ ⟨by decide, trivial⟩
    (by decide) (by decide) (by decide) (by decide) (by decide) (by decide)
    (by decide) (by decide) (by decide) (by decide)

/-! ## Claim C6 -/

/-- Claim C6: the policy-table scenario.  Base level: non-configurable
data property `x`; leaf level: data override of `x` (values
non-functions here so the stored value is the descriptor value itself).
Under `flexible` the committed descriptor is the leaf descriptor
verbatim; under `strict` it keeps the leaf value with writability the
conjunction of the two levels and configurable `false`; under
`strictest` the base descriptor is kept unchanged, the leaf is dropped,
and a diagnostic is logged. -/
theorem policy_table_scenario (isNative : JsKey → Bool) (element : Nat)
    (v0 v1 : JsValue) (w0 w1 en0 en1 c1 : Bool)
    (hnat : isNative (.str "x") = false)
    (hv0 : v0.isFunctionB = false) (hv1 : v1.isFunctionB = false) :
    (copyMethodsToElement .flexible isNative element
        [[(.str "x", ⟨some v1, none, none, some w1, some en1, some c1⟩)],
         [(.str "x", ⟨some v0, none, none, some w0, some en0, some false⟩)]]).1
      = [(.str "x", ⟨some v1, none, none, some w1, some en1, some c1⟩)]
    ∧ (copyMethodsToElement .strict isNative element
        [[(.str "x", ⟨some v1, none, none, some w1, some en1, some c1⟩)],
         [(.str "x", ⟨some v0, none, none, some w0, some en0, some false⟩)]]).1
      = [(.str "x", ⟨some v1, none, none, some (w1 && w0), some en1, some false⟩)]
    ∧ (copyMethodsToElement .strictest isNative element
        [[(.str "x", ⟨some v1, none, none, some w1, some en1, some c1⟩)],
         [(.str "x", ⟨some v0, none, none, some w0, some en0, some false⟩)]]).1
      = [(.str "x", ⟨some v0, none, none, some w0, some en0, some false⟩)]
    ∧ (copyMethodsToElement .strictest isNative element
        [[(.str "x", ⟨some v1, none, none, some w1, some en1, some c1⟩)],
         [(.str "x", ⟨some v0, none, none, some w0, some en0, some false⟩)]]).2
      = ["Cannot override non-configurable parent property"] := by
  refine ⟨?_, ?_, ?_, ?_⟩
  · cases c1 <;>
      simp +decide [copyMethodsToElement, pass1, pass1Go, processKey, pass2,
        commitRecord, mapGet, mapSet, bindTo, hnat, hv0, hv1]
  · simp +decide [copyMethodsToElement, pass1, pass1Go, processKey, pass2,
      commitRecord, mapGet, mapSet, bindTo, hnat, hv0, hv1]
  · simp +decide [copyMethodsToElement, pass1, pass1Go, processKey, pass2,
      commitRecord, mapGet, mapSet, bindTo, hnat, hv0, hv1]
  · simp +decide [copyMethodsToElement, pass1, pass1Go, processKey, pass2,
      commitRecord, mapGet, mapSet, bindTo, hnat, hv0, hv1]

/-- Claim C6 witness: the scenario instantiated with concrete values
(base value 1 read-write enumerable, leaf value 2 configurable). -/
theorem policy_table_scenario_witness :
    (copyMethodsToElement .flexible (fun _ => false) 5
        [[(.str "x", ⟨some (.prim 2), none, none, some true, some true, some true⟩)],
         [(.str "x", ⟨some (.prim 1), none, none, some true, some true, some false⟩)]]).1
      = [(.str "x", ⟨some (.prim 2), none, none, some true, some true, some true⟩)]
    ∧ (copyMethodsToElement .strict (fun _ => false) 5
        [[(.str "x", ⟨some (.prim 2), none, none, some true, some true, some true⟩)],
         [(.str "x", ⟨some (.prim 1), none, none, some true, some true, some false⟩)]]).1
      = [(.str "x", ⟨some (.prim 2), none, none, some (true && true), some true, some false⟩)]
    ∧ (copyMethodsToElement .strictest (fun _ => false) 5
        [[(.str "x", ⟨some (.prim 2), none, none, some true, some true, some true⟩)],
         [(.str "x", ⟨some (.prim 1), none, none, some true, some true, some false⟩)]]).1
      = [(.str "x", ⟨some (.prim 1), none, none, some true, some true, some false⟩)]
    ∧ (copyMethodsToElement .strictest (fun _ => false) 5
        [[(.str "x", ⟨some (.prim 2), none, none, some true, some true, some true⟩)],
         [(.str "x", ⟨some (.prim 1), none, none, some true, some true, some false⟩)]]).2
      = ["Cannot override non-configurable parent property"] :=
  policy_table_scenario (fun _ => false) 5 (.prim 1) (.prim 2) true true true true true
    rfl rfl rfl

/-! ## Claim C7 -/

/-- One Pass-1 step preserves a set lock flag in the running record
under the strict and strictest policies. -/
theorem processKey_lock_mono (mode : Mode) (hm : mode ≠ .flexible)
    (isNative : JsKey → Bool) (element : Nat) (m : PropMap) (lg : MergeLog)
    (k k2 : JsKey) (d : JsDescriptor)
    (hl : (mapGet m k).map (fun r => r.shouldLock) = some true) :
    (mapGet (processKey mode isNative element (m, lg) (k2, d)).1 k).map
      (fun r => r.shouldLock) = some true := by
  obtain ⟨r, hr, hrl⟩ : ∃ r, mapGet m k = some r ∧ r.shouldLock = true := by
    cases hmg : mapGet m k with
    | none => rw [hmg] at hl; simp at hl
    | some r => rw [hmg] at hl; exact ⟨r, rfl, by simpa using hl⟩
  by_cases hk : k2 = k
  case neg =>
    unfold processKey
    dsimp only
    split
    · simpa using hl
    split
    · simpa using hl
    split
    · simpa using hl
    split
    · simpa using hl
    split
    · dsimp only
      rw [mapGet_set_ne _ _ _ _ hk]
      exact hl
    split
    · dsimp only
      rw [mapGet_set_ne _ _ _ _ hk]
      exact hl
    · simpa using hl
  case pos =>
    subst hk
    cases mode with
    | flexible => exact absurd rfl hm
    | strict =>
      unfold processKey
      dsimp only
      split
      · simpa using hl
      split
      · simpa using hl
      rw [if_neg (by simp)]
      rw [if_neg (by simp)]
      split
      · dsimp only
        rw [mapGet_set_self]
        simp [hr, hrl]
      split
      · dsimp only
        rw [mapGet_set_self]
        simp [hr, hrl]
      · simpa using hl
    | strictest =>
      unfold processKey
      dsimp only
      split
      · simpa using hl
      split
      · simpa using hl
      rw [if_pos ⟨rfl, by rw [hr]; simpa using hrl⟩]
      simpa using hl

/-- A whole level preserves a set lock flag under strict/strictest. -/
theorem level_lock_mono (mode : Mode) (hm : mode ≠ .flexible)
    (isNative : JsKey → Bool) (element : Nat) (k : JsKey) :
    ∀ (lvl : Level) (m : PropMap) (lg : MergeLog),
      (mapGet m k).map (fun r => r.shouldLock) = some true →
      (mapGet (lvl.foldl (processKey mode isNative element) (m, lg)).1 k).map
        (fun r => r.shouldLock) = some true := by
  intro lvl
  induction lvl with
  | nil => intro m lg hl; simpa using hl
  | cons kd rest ih =>
    intro m lg hl
    rw [List.foldl_cons]
    obtain ⟨k2, d⟩ := kd
    have h1 := processKey_lock_mono mode hm isNative element m lg k k2 d hl
    cases hp : processKey mode isNative element (m, lg) (k2, d) with
    | mk m2 lg2 =>
      rw [hp] at h1
      exact ih m2 lg2 (by simpa using h1)

/-- Claim C7 amended: under the strict and strictest policies the lock
flag is monotonic across the remainder of Pass 1 — once the running
PropertyRecord of a key has `shouldLock = true`, it still has it after
any further levels are merged.  (Under `flexible` the flag is NOT
monotonic: the most-derived descriptor recomputes it from scratch, see
the counterexample.) -/
theorem lockable_monotonic_strict_modes (mode : Mode) (hm : mode ≠ .flexible)
    (isNative : JsKey → Bool) (element : Nat) (k : JsKey) :
    ∀ (levels : List Level) (m : PropMap) (lg : MergeLog),
      (mapGet m k).map (fun r => r.shouldLock) = some true →
      (mapGet (pass1Go mode isNative element (m, lg) levels).1 k).map
        (fun r => r.shouldLock) = some true := by
  intro levels
  induction levels with
  | nil => intro m lg hl; simpa [pass1Go] using hl
  | cons lvl rest ih =>
    intro m lg hl
    unfold pass1Go
    rw [List.foldl_cons]
    have h1 := level_lock_mono mode hm isNative element k lvl m lg hl
    cases hp : lvl.foldl (processKey mode isNative element) (m, lg) with
    | mk m2 lg2 =>
      rw [hp] at h1
      exact ih m2 lg2 (by simpa using h1)

/-- Claim C7 counterexample.  Under `flexible`, after the ancestor
level (non-configurable data `x`) the running record has
`shouldLock = true`, but processing the more-derived level (configurable
override of `x`) clears the flag back to `false` — the lock is not
monotonic under every policy. -/
theorem lockable_monotonic_cx :
    ((mapGet (pass1 .flexible (fun _ => false) 5
        [[(.str "x", ⟨some (.prim 1), none, none, some true, some true, some false⟩)]]).1
      (.str "x")).map (fun r => r.shouldLock) = some true)
    ∧ ((mapGet (pass1 .flexible (fun _ => false) 5
        [[(.str "x", ⟨some (.prim 2), none, none, some true, some true, some true⟩)],
         [(.str "x", ⟨some (.prim 1), none, none, some true, some true, some false⟩)]]).1
      (.str "x")).map (fun r => r.shouldLock) = some false) := by
  decide

/-- Claim C7 witness: the amended monotonicity applied concretely under
`strict`: a locked running record for `x` stays locked across a
further level that overrides `x` with a configurable descriptor. -/
theorem lockable_monotonic_strict_modes_witness :
    (mapGet (pass1Go .strict (fun _ => false) 5
        ([(.str "x", ⟨"data", some (.prim 1), none, none, some true, true, true⟩)], [])
        [[(.str "x", ⟨some (.prim 2), none, none, some true, some true, some true⟩)]]).1
      (.str "x")).map (fun r => r.shouldLock) = some true :=
  lockable_monotonic_strict_modes .strict (by decide) (fun _ => false) 5 (.str "x")
    [[(.str "x", ⟨some (.prim 2), none, none, some true, some true, some true⟩)]]
    [(.str "x", ⟨"data", some (.prim 1), none, none, some true, true, true⟩)] []
    (by decide)

/-! ## Claim C8 -/

/-- Claim C8: partial accessor merging.  An ancestor level defines
`color` with only a getter, a more-derived level redefines it with only
a setter.  Under `strict`, and under `strictest` when the ancestor
record is not locked, the committed accessor keeps the ancestor getter
(bound to the instance) and takes the child setter — both halves
simultaneously.  Under `flexible` the child descriptor is taken as-is,
leaving the getter half undefined. -/
theorem partial_accessor_merge (isNative : JsKey → Bool) (element : Nat)
    (g s : JsValue) (en0 en1 : Bool) (c0 c1 : Option Bool)
    (hnat : isNative (.str "color") = false)
    (hc0 : (c0 == some false) = false) :
    ((committedFor (copyMethodsToElement .strict isNative element
        [[(.str "color", ⟨none, none, some s, none, some en1, c1⟩)],
         [(.str "color", ⟨none, some g, none, none, some en0, c0⟩)]]).1
        (.str "color")).map (fun dd => (dd.get, dd.set))
      = some (some (bindTo g element), some (bindTo s element)))
    ∧ ((committedFor (copyMethodsToElement .strictest isNative element
        [[(.str "color", ⟨none, none, some s, none, some en1, c1⟩)],
         [(.str "color", ⟨none, some g, none, none, some en0, c0⟩)]]).1
        (.str "color")).map (fun dd => (dd.get, dd.set))
      = some (some (bindTo g element), some (bindTo s element)))
    ∧ ((committedFor (copyMethodsToElement .flexible isNative element
        [[(.str "color", ⟨none, none, some s, none, some en1, c1⟩)],
         [(.str "color", ⟨none, some g, none, none, some en0, c0⟩)]]).1
        (.str "color")).map (fun dd => (dd.get, dd.set))
      = some (none, some (bindTo s element))) := by
  refine ⟨?_, ?_, ?_⟩
  · simp +decide [copyMethodsToElement, pass1, pass1Go, processKey, pass2,
      commitRecord, mapGet, mapSet, committedFor, hnat, hc0]
  · simp +decide [copyMethodsToElement, pass1, pass1Go, processKey, pass2,
      commitRecord, mapGet, mapSet, committedFor, hnat, hc0]
  · simp +decide [copyMethodsToElement, pass1, pass1Go, processKey, pass2,
      commitRecord, mapGet, mapSet, committedFor, hnat, hc0]

/-- Claim C8 witness: the partial merge instantiated with concrete
getter function 7 and setter function 8 on element 5. -/
theorem partial_accessor_merge_witness :
    ((committedFor (copyMethodsToElement .strict (fun _ => false) 5
        [[(.str "color", ⟨none, none, some (.fn 8), none, some false, some true⟩)],
         [(.str "color", ⟨none, some (.fn 7), none, none, some false, some true⟩)]]).1
        (.str "color")).map (fun dd => (dd.get, dd.set))
      = some (some (bindTo (.fn 7) 5), some (bindTo (.fn 8) 5)))
    ∧ ((committedFor (copyMethodsToElement .strictest (fun _ => false) 5
        [[(.str "color", ⟨none, none, some (.fn 8), none, some false, some true⟩)],
         [(.str "color", ⟨none, some (.fn 7), none, none, some false, some true⟩)]]).1
        (.str "color")).map (fun dd => (dd.get, dd.set))
      = some (some (bindTo (.fn 7) 5), some (bindTo (.fn 8) 5)))
    ∧ ((committedFor (copyMethodsToElement .flexible (fun _ => false) 5
        [[(.str "color", ⟨none, none, some (.fn 8), none, some false, some true⟩)],
         [(.str "color", ⟨none, some (.fn 7), none, none, some false, some true⟩)]]).1
        (.str "color")).map (fun dd => (dd.get, dd.set))
      = some (none, some (bindTo (.fn 8) 5))) :=
  partial_accessor_merge (fun _ => false) 5 (.fn 7) (.fn 8) false false
    (some true) (some true) rfl rfl

/-! ## Claim C9 -/

/-- A Pass-1 step never introduces a string key that the host test
reports as native: such a key is skipped (or was skipped as internal),
and steps on other keys cannot create it. -/
theorem processKey_native_absent (mode : Mode) (isNative : JsKey → Bool)
    (element : Nat) (m : PropMap) (lg : MergeLog) (s : String)
    (k2 : JsKey) (d : JsDescriptor)
    (hnat : isNative (.str s) = true)
    (hm : mapGet m (.str s) = none) :
    mapGet (processKey mode isNative element (m, lg) (k2, d)).1 (.str s) = none := by
  by_cases hk : k2 = .str s
  case pos =>
    subst hk
    unfold processKey
    dsimp only
    split
    · simpa using hm
    · simp only [hnat]
      simpa using hm
  case neg =>
    unfold processKey
    dsimp only
    split
    · simpa using hm
    split
    · simpa using hm
    split
    · simpa using hm
    split
    · simpa using hm
    split
    · dsimp only
      rw [mapGet_set_ne _ _ _ _ hk]
      exact hm
    split
    · dsimp only
      rw [mapGet_set_ne _ _ _ _ hk]
      exact hm
    · simpa using hm

/-- A whole level never introduces a native-reported string key. -/
theorem level_native_absent (mode : Mode) (isNative : JsKey → Bool)
    (element : Nat) (s : String) (hnat : isNative (.str s) = true) :
    ∀ (lvl : Level) (m : PropMap) (lg : MergeLog),
      mapGet m (.str s) = none →
      mapGet (lvl.foldl (processKey mode isNative element) (m, lg)).1 (.str s) = none := by
  intro lvl
  induction lvl with
  | nil => intro m lg hm; simpa using hm
  | cons kd rest ih =>
    intro m lg hm
    rw [List.foldl_cons]
    obtain ⟨k2, d⟩ := kd
    have h1 := processKey_native_absent mode isNative element m lg s k2 d hnat hm
    cases hp : processKey mode isNative element (m, lg) (k2, d) with
    | mk m2 lg2 =>
      rw [hp] at h1
      exact ih m2 lg2 (by simpa using h1)

/-- Pass 1 never maps a native-reported string key. -/
theorem pass1Go_native_absent (mode : Mode) (isNative : JsKey → Bool)
    (element : Nat) (s : String) (hnat : isNative (.str s) = true) :
    ∀ (levels : List Level) (m : PropMap) (lg : MergeLog),
      mapGet m (.str s) = none →
      mapGet (pass1Go mode isNative element (m, lg) levels).1 (.str s) = none := by
  intro levels
  induction levels with
  | nil => intro m lg hm; simpa [pass1Go] using hm
  | cons lvl rest ih =>
    intro m lg hm
    unfold pass1Go
    rw [List.foldl_cons]
    have h1 := level_native_absent mode isNative element s hnat lvl m lg hm
    cases hp : lvl.foldl (processKey mode isNative element) (m, lg) with
    | mk m2 lg2 =>
      rw [hp] at h1
      exact ih m2 lg2 (by simpa using h1)

/-- A key absent from the merge map is absent from the Pass-2 output. -/
theorem committedFor_pass2_none (k : JsKey) :
    ∀ (m : PropMap), mapGet m k = none → committedFor (pass2 m) k = none := by
  intro m
  induction m with
  | nil => intro _; rfl
  | cons a t ih =>
    intro hm
    have hak : a.1 ≠ k := by
      intro hc
      rw [mapGet_cons_of_eq t a k hc] at hm
      cases hm
    have hmt : mapGet t k = none := by
      rw [mapGet_cons_of_ne t a k hak] at hm
      exact hm
    show committedFor
      (match commitRecord a.2 with
       | some dd => (a.1, dd) :: pass2 t
       | none => pass2 t) k = none
    cases commitRecord a.2 with
    | some dd =>
      unfold committedFor
      rw [List.find?_cons_of_neg]
      · exact ih hmt
      · simp [hak]
    | none => exact ih hmt

/-- Claim C9 amended: host-native protection holds for STRING keys:
any string key the disposable same-tag test reports as native is never
committed by the merge — it is skipped at every level of Pass 1 and
therefore absent from the Pass-2 output.  (Symbol keys bypass the test
entirely; see the counterexample.) -/
theorem host_native_string_protected (mode : Mode) (isNative : JsKey → Bool)
    (element : Nat) (protos : List Level) (s : String)
    (hnat : isNative (.str s) = true) :
    committedFor (copyMethodsToElement mode isNative element protos).1 (.str s) = none := by
  unfold copyMethodsToElement pass1
  apply committedFor_pass2_none
  exact pass1Go_native_absent mode isNative element s hnat protos.reverse [] [] rfl

/-- Claim C9 counterexample.  The native-key skip tests
`typeof name === 'string'` first, so a SYMBOL key that the disposable
same-tag test reports as belonging to the host (the oracle here answers
`true` for every key, as `Reflect.has` does for e.g.
`Symbol.toStringTag` on a fresh element) is still merged and committed
as an own definition on the fused instance, while the string key `y`
enumerated at the same level is correctly skipped. -/
theorem host_native_symbol_cx :
    ((fun _ => true) (JsKey.sym 3) = true)
    ∧ (committedFor (copyMethodsToElement .flexible (fun _ => true) 5
        [[(.sym 3, ⟨some (.prim 9), none, none, some true, some true, some true⟩),
          (.str "y", ⟨some (.prim 9), none, none, some true, some true, some true⟩)]]).1
        (.sym 3)
      = some ⟨some (.prim 9), none, none, some true, some true, some true⟩)
    ∧ (committedFor (copyMethodsToElement .flexible (fun _ => true) 5
        [[(.sym 3, ⟨some (.prim 9), none, none, some true, some true, some true⟩),
          (.str "y", ⟨some (.prim 9), none, none, some true, some true, some true⟩)]]).1
        (.str "y") = none) := by
  decide

/-- Claim C9 witness: the amended string-key protection applied at a
concrete input. -/
theorem host_native_string_protected_witness :
    committedFor (copyMethodsToElement .flexible (fun _ => true) 5
      [[(.str "y", ⟨some (.prim 9), none, none, some true, some true, some true⟩)]]).1
      (.str "y") = none :=
  host_native_string_protected .flexible (fun _ => true) 5
    [[(.str "y", ⟨some (.prim 9), none, none, some true, some true, some true⟩)]]
    "y" rfl

end InstanceJS
